import Mathlib

/-!
Formal model of the RetailNova Serverless FinOps dashboard (`app.py`).

The script loads a CSV of serverless-function cost records, coerces eight
named columns to numbers (unparseable cells become missing), filters the
table by Environment membership and a CostUSD range, derives share columns,
and renders six views (Pareto cost concentration, memory right-sizing,
provisioned-concurrency optimization, low-value workloads, a degree-1
least-squares cost forecast, containerization candidates).

Modelling conventions:
* numeric cells are `Option ℚ` — `none` models a pandas missing value (NaN);
  every pandas comparison against NaN is `False`, which the `Option`-aware
  boolean comparators below reproduce;
* pandas `sum` skips NaN, modelled by `Option.getD 0` before summing;
* money and metrics are exact rationals, so "within floating-point
  tolerance" statements become exact equalities.
-/

set_option autoImplicit false

/-- One serverless function's monthly record, after type coercion: the eight
numeric columns of `app.py` line 29–31 are `Option ℚ`, text columns stay
`String`. -/
structure Row where
  FunctionName : String
  Environment : String
  InvocationsPerMonth : Option ℚ
  AvgDurationMs : Option ℚ
  MemoryMB : Option ℚ
  ColdStartRate : Option ℚ
  ProvisionedConcurrency : Option ℚ
  GBSeconds : Option ℚ
  DataTransferGB : Option ℚ
  CostUSD : Option ℚ
  deriving DecidableEq

/-- Models `df.Environment.isin(env_sel)` for one row. -/
def envMatch (envs : List String) (r : Row) : Bool :=
  decide (r.Environment ∈ envs)

/-- Models `df.CostUSD.between(lo, hi)` for one row: pandas `between` is
inclusive on both ends and is `False` on NaN. -/
def costBetween (lo hi : ℚ) (r : Row) : Bool :=
  match r.CostUSD with
  | some c => decide (lo ≤ c) && decide (c ≤ hi)
  | none => false

/-- Models line 46, `df[(df.Environment.isin(env_sel)) &
(df.CostUSD.between(lo, hi))].copy()`: build the boolean mask per row, then
select the rows whose mask bit is true, in order. -/
def filterRows (rows : List Row) (envs : List String) (lo hi : ℚ) : List Row :=
  (((rows.map fun r => (r, envMatch envs r && costBetween lo hi r)).filter
    fun p => p.2).map fun p => p.1)

/-- Selecting by a computed mask is the same as filtering by the predicate. -/
theorem maskSelect_eq_filter {α : Type} (l : List α) (p : α → Bool) :
    (((l.map fun a => (a, p a)).filter fun x => x.2).map fun x => x.1) =
      l.filter p := by
  induction l with
  | nil => rfl
  | cons a t ih =>
    by_cases h : p a = true
    · simp only [List.map_cons, List.filter_cons, h, ite_true, List.map]
      exact congrArg _ ih
    · simp only [List.map_cons, List.filter_cons, h, ite_false, Bool.false_eq_true]
      exact ih

/-- A row selected by the mask has its CostUSD present (the mask's
`costBetween` conjunct is false on a missing cost). -/
theorem mem_filterRows_cost_isSome {rows : List Row} {envs : List String}
    {lo hi : ℚ} {r : Row} (h : r ∈ filterRows rows envs lo hi) :
    ∃ c : ℚ, r.CostUSD = some c := by
  rw [filterRows, maskSelect_eq_filter, List.mem_filter] at h
  obtain ⟨-, hp⟩ := h
  rw [Bool.and_eq_true] at hp
  cases hcost : r.CostUSD with
  | none => rw [costBetween, hcost] at hp; exact absurd hp.2 (by simp)
  | some c => exact ⟨c, rfl⟩

/-- C4: for every table and every (environments, [min, max]) choice, the
filter output is the sublist of input rows (original order kept) consisting
of exactly those rows whose Environment is in the selected set and whose
CostUSD is present and within the inclusive range; an empty environment
selection yields an empty result. -/
theorem filter_engine_contract (rows : List Row) (envs : List String) (lo hi : ℚ) :
    filterRows rows envs lo hi =
      rows.filter (fun r => envMatch envs r && costBetween lo hi r) ∧
    List.Sublist (filterRows rows envs lo hi) rows ∧
    (∀ r : Row, r ∈ filterRows rows envs lo hi ↔
      (r ∈ rows ∧ r.Environment ∈ envs ∧ ∃ c : ℚ, r.CostUSD = some c ∧ lo ≤ c ∧ c ≤ hi)) ∧
    filterRows rows [] lo hi = [] := by
  have heq : ∀ es : List String, filterRows rows es lo hi =
      rows.filter (fun r => envMatch es r && costBetween lo hi r) :=
    fun es => maskSelect_eq_filter rows _
  refine ⟨heq envs, ?_, ?_, ?_⟩
  · rw [heq]; exact List.filter_sublist rows
  · intro r
    rw [heq, List.mem_filter]
    constructor
    · rintro ⟨hmem, hp⟩
      rw [Bool.and_eq_true] at hp
      obtain ⟨he, hc⟩ := hp
      refine ⟨hmem, ?_, ?_⟩
      · exact of_decide_eq_true he
      · cases hcost : r.CostUSD with
        | none => rw [costBetween, hcost] at hc; exact absurd hc (by simp)
        | some c =>
          rw [costBetween, hcost, Bool.and_eq_true] at hc
          exact ⟨c, rfl, of_decide_eq_true hc.1, of_decide_eq_true hc.2⟩
    · rintro ⟨hmem, he, c, hc, h1, h2⟩
      refine ⟨hmem, ?_⟩
      rw [Bool.and_eq_true, envMatch, costBetween, hc, Bool.and_eq_true]
      exact ⟨decide_eq_true he, decide_eq_true h1, decide_eq_true h2⟩
  · rw [heq]
    apply List.filter_eq_nil_iff.mpr
    intro r _
    simp [envMatch]

/-- Models pandas `Series.sum` over CostUSD: NaN cells are skipped, i.e.
contribute 0. -/
def getCost (r : Row) : ℚ := r.CostUSD.getD 0

/-- Models `data.CostUSD.sum()`. -/
def totalCost (rows : List Row) : ℚ := (rows.map getCost).sum

/-- Models line 48, `data["CostShare%"] = data.CostUSD / data.CostUSD.sum() * 100`:
a missing CostUSD yields a missing share. -/
def costShare (rows : List Row) (r : Row) : Option ℚ :=
  r.CostUSD.map fun c => c / totalCost rows * 100

/-- Dividing every list element by `T` and scaling by 100 does that to the sum. -/
theorem sum_map_div_mul (l : List ℚ) (T : ℚ) :
    (l.map fun c => c / T * 100).sum = l.sum / T * 100 := by
  induction l with
  | nil => simp
  | cons a t ih =>
    rw [List.map_cons, List.sum_cons, List.sum_cons, ih]
    ring

/-- C5: on every non-empty working set (output of the Environment/cost
filter) with strictly positive total cost, the CostShare% column sums to
exactly 100 (rationals model the float arithmetic, so "within tolerance"
becomes exact equality). -/
theorem cost_share_sum_eq_100 (rows : List Row) (envs : List String) (lo hi : ℚ)
    (_hne : filterRows rows envs lo hi ≠ [])
    (hpos : 0 < totalCost (filterRows rows envs lo hi)) :
    ((filterRows rows envs lo hi).map
      fun r => (costShare (filterRows rows envs lo hi) r).getD 0).sum = 100 := by
  set ws := filterRows rows envs lo hi with hws
  have hmap : ws.map (fun r => (costShare ws r).getD 0) =
      ws.map fun r => getCost r / totalCost ws * 100 := by
    apply List.map_congr_left
    intro r hr
    obtain ⟨c, hc⟩ := mem_filterRows_cost_isSome (hws ▸ hr)
    simp [costShare, getCost, hc]
  have hcomp : ws.map (fun r => getCost r / totalCost ws * 100) =
      (ws.map getCost).map fun c => c / totalCost ws * 100 := by
    rw [List.map_map]; rfl
  rw [hmap, hcomp, sum_map_div_mul]
  have hT : totalCost ws ≠ 0 := ne_of_gt hpos
  have hsum : (ws.map getCost).sum = totalCost ws := rfl
  rw [hsum, div_self hT, one_mul]

/-- A sample working-set row: the Scenario A record of the spec (prod, cost
100), with all other numeric cells present. -/
def rowProd : Row :=
  ⟨"checkout", "prod", some 1000, some 100, some 512, some 1, some 0,
    some 1, some 1, some 100⟩

/-- C5 witness: Scenario A — one prod row of cost 100, filter to prod and
range [0, 100]: the working set is non-empty, has positive total cost, and
its CostShare% column sums to 100. -/
theorem cost_share_sum_eq_100_witness :
    filterRows [rowProd] ["prod"] 0 100 ≠ [] ∧
    0 < totalCost (filterRows [rowProd] ["prod"] 0 100) ∧
    ((filterRows [rowProd] ["prod"] 0 100).map
      fun r => (costShare (filterRows [rowProd] ["prod"] 0 100) r).getD 0).sum = 100 :=
  ⟨by norm_num [filterRows, envMatch, costBetween, rowProd],
   by norm_num [filterRows, envMatch, costBetween, rowProd, totalCost, getCost],
   cost_share_sum_eq_100 [rowProd] ["prod"] 0 100
     (by norm_num [filterRows, envMatch, costBetween, rowProd])
     (by norm_num [filterRows, envMatch, costBetween, rowProd, totalCost, getCost])⟩

/-- Descending-by-CostUSD order used by `data.sort_values("CostUSD",
ascending=False)`: a row comes first when its cost is at least the other's,
and rows with missing cost sort last (pandas `na_position="last"`). -/
def costDescBefore (r1 r2 : Row) : Bool :=
  match r1.CostUSD, r2.CostUSD with
  | some a, some b => decide (b ≤ a)
  | some _, none => true
  | none, some _ => false
  | none, none => true

/-- Insertion step of the sort by descending CostUSD. -/
def insertDesc (r : Row) : List Row → List Row
  | [] => [r]
  | x :: xs => if costDescBefore x r then x :: insertDesc r xs else r :: x :: xs

/-- Models line 86, `data.sort_values("CostUSD", ascending=False)`. -/
def sortByCostDesc (rows : List Row) : List Row := rows.foldr insertDesc []

/-- Models `df80.CostUSD.cumsum()` down the sorted table: a missing cell
yields a missing cumulative value and is skipped by the running sum. -/
def cumCosts : ℚ → List Row → List (Row × Option ℚ)
  | _, [] => []
  | acc, r :: rs =>
    match r.CostUSD with
    | some c => (r, some (acc + c)) :: cumCosts (acc + c) rs
    | none => (r, none) :: cumCosts acc rs

/-- Models lines 86–89: sort by CostUSD descending, set
`Cum% = cumsum / sum * 100`, and display the rows with `Cum% <= 80`. When the
total is zero every `Cum%` is NaN/±inf in pandas and the comparison is false,
modelled by excluding the row. -/
def paretoTop (rows : List Row) : List Row :=
  let s := sortByCostDesc rows
  let total := totalCost s
  ((cumCosts 0 s).filter fun p =>
    match p.2 with
    | some c => if total = 0 then false else decide (c / total * 100 ≤ 80)
    | none => false).map fun p => p.1

/-- Scenario B row of cost 10. -/
def rowCost10 : Row :=
  ⟨"alpha", "prod", some 1000, some 100, some 512, some 1, some 0,
    some 1, some 1, some 10⟩

/-- Scenario B row of cost 90. -/
def rowCost90 : Row :=
  ⟨"beta", "prod", some 2000, some 200, some 1024, some 2, some 0,
    some 2, some 2, some 90⟩

/-- C1 counterexample: with exactly the two rows of CostUSD 10 and 90, the
90-cost row is NOT in the displayed cost-concentration table — its running
cumulative percentage is 90, and `90 <= 80` is false, so `df80[df80["Cum%"]
<= 80]` drops it. -/
theorem pareto_scenarioB_excludes_90 :
    rowCost90 ∉ paretoTop [rowCost10, rowCost90] := by
  norm_num [paretoTop, sortByCostDesc, insertDesc, costDescBefore, cumCosts,
    totalCost, getCost, rowCost10, rowCost90]

/-- C1 amended: for the two rows of CostUSD 10 and 90, the cost-concentration
view at the 80% threshold shows no rows at all: the longest prefix of the
descending sort whose post-inclusion cumulative percentage is ≤ 80 is empty,
because the 90-cost row alone already reaches 90%. -/
theorem pareto_scenarioB_table_empty :
    paretoTop [rowCost10, rowCost90] = [] := by
  norm_num [paretoTop, sortByCostDesc, insertDesc, costDescBefore, cumCosts,
    totalCost, getCost, rowCost10, rowCost90]

/-- Pandas `series >= scalar` on one cell: false on a missing value. -/
def oGe (a : Option ℚ) (t : ℚ) : Bool :=
  match a with
  | some x => decide (t ≤ x)
  | none => false

/-- Pandas `series <= scalar` on one cell: false on a missing value. -/
def oLe (a : Option ℚ) (t : ℚ) : Bool :=
  match a with
  | some x => decide (x ≤ t)
  | none => false

/-- Pandas `series > scalar` on one cell: false on a missing value. -/
def oGt (a : Option ℚ) (t : ℚ) : Bool :=
  match a with
  | some x => decide (t < x)
  | none => false

/-- Pandas `series < scalar` on one cell: false on a missing value. -/
def oLt (a : Option ℚ) (t : ℚ) : Bool :=
  match a with
  | some x => decide (x < t)
  | none => false

/-- Pandas `>` where the right side may itself be missing (an all-NaN
median): false when either side is missing. -/
def oGtO (a b : Option ℚ) : Bool :=
  match a, b with
  | some x, some y => decide (y < x)
  | _, _ => false

/-- Pandas `<` with a possibly-missing right side: false when either side is
missing. -/
def oLtO (a b : Option ℚ) : Bool :=
  match a, b with
  | some x, some y => decide (x < y)
  | _, _ => false

/-- Models pandas `Series.sum` over InvocationsPerMonth: NaN cells skipped. -/
def getInv (r : Row) : ℚ := r.InvocationsPerMonth.getD 0

/-- Models `data.InvocationsPerMonth.sum()`. -/
def totalInv (rows : List Row) : ℚ := (rows.map getInv).sum

/-- Models line 49, `data["Invocation%"] = data.InvocationsPerMonth /
data.InvocationsPerMonth.sum() * 100`: a missing numerator gives a missing
share, and a zero denominator gives NaN/±inf in pandas — modelled as missing,
which agrees with pandas on every later `< 1` comparison for the
non-negative invocation counts of the data model. -/
def invocationShare (rows : List Row) (r : Row) : Option ℚ :=
  if totalInv rows = 0 then none
  else r.InvocationsPerMonth.map fun i => i / totalInv rows * 100

/-- Sorted insertion of a rational. -/
def insertQ (x : ℚ) : List ℚ → List ℚ
  | [] => [x]
  | y :: ys => if decide (x ≤ y) then x :: y :: ys else y :: insertQ x ys

/-- Ascending sort of rationals (insertion sort). -/
def sortQ (l : List ℚ) : List ℚ := l.foldr insertQ []

/-- Pandas `Series.median()`: drop missing cells, sort, take the middle
element (odd count) or the mean of the two middle elements (even count);
missing when no cell is present. -/
def medianOpt (l : List (Option ℚ)) : Option ℚ :=
  let xs := sortQ (l.filterMap id)
  let n := xs.length
  if n = 0 then none
  else if n % 2 = 1 then some (xs.getD (n / 2) 0)
  else some ((xs.getD (n / 2 - 1) 0 + xs.getD (n / 2) 0) / 2)

/-- Models `data.CostUSD.median()`. -/
def medianCost (rows : List Row) : Option ℚ := medianOpt (rows.map fun r => r.CostUSD)

/-- Models `data.InvocationsPerMonth.median()`. -/
def medianInv (rows : List Row) : Option ℚ :=
  medianOpt (rows.map fun r => r.InvocationsPerMonth)

/-- Models line 107, the memory right-sizing candidates
`data[(data.MemoryMB>=mem_t) & (data.AvgDurationMs<=dur_t)]`. -/
def rsCandidates (data : List Row) (memT durT : ℚ) : List Row :=
  data.filter fun r => oGe r.MemoryMB memT && oLe r.AvgDurationMs durT

/-- Models line 121, the provisioned-concurrency candidates
`data[(data.ProvisionedConcurrency>0) & (data.ColdStartRate<=cold)]`. -/
def pcCandidates (data : List Row) (coldT : ℚ) : List Row :=
  data.filter fun r => oGt r.ProvisionedConcurrency 0 && oLe r.ColdStartRate coldT

/-- Models line 136, the low-value workloads
`data[(data["Invocation%"]<1) & (data.CostUSD>data.CostUSD.median())]`. -/
def lowValueCandidates (data : List Row) : List Row :=
  data.filter fun r =>
    oLt (invocationShare data r) 1 && oGtO r.CostUSD (medianCost data)

/-- Models lines 172–173, the containerization candidates
`data[(data.AvgDurationMs>=3000) & (data.MemoryMB>=2048) &
(data.InvocationsPerMonth<data.InvocationsPerMonth.median())]`. -/
def contCandidates (data : List Row) : List Row :=
  data.filter fun r =>
    oGe r.AvgDurationMs 3000 && oGe r.MemoryMB 2048 &&
      oLtO r.InvocationsPerMonth (medianInv data)

/-- A true `oGe` comparison forces the cell to be present. -/
theorem oGe_isSome {a : Option ℚ} {t : ℚ} (h : oGe a t = true) : a.isSome = true := by
  cases a with
  | none => exact absurd h (by simp [oGe])
  | some x => rfl

/-- A true `oLe` comparison forces the cell to be present. -/
theorem oLe_isSome {a : Option ℚ} {t : ℚ} (h : oLe a t = true) : a.isSome = true := by
  cases a with
  | none => exact absurd h (by simp [oLe])
  | some x => rfl

/-- A true `oGt` comparison forces the cell to be present. -/
theorem oGt_isSome {a : Option ℚ} {t : ℚ} (h : oGt a t = true) : a.isSome = true := by
  cases a with
  | none => exact absurd h (by simp [oGt])
  | some x => rfl

/-- A true `oLt` comparison forces the cell to be present. -/
theorem oLt_isSome {a : Option ℚ} {t : ℚ} (h : oLt a t = true) : a.isSome = true := by
  cases a with
  | none => exact absurd h (by simp [oLt])
  | some x => rfl

/-- A true `oGtO` comparison forces the left cell to be present. -/
theorem oGtO_isSome {a b : Option ℚ} (h : oGtO a b = true) : a.isSome = true := by
  cases a with
  | none => exact absurd h (by simp [oGtO])
  | some x => rfl

/-- A true `oLtO` comparison forces the left cell to be present. -/
theorem oLtO_isSome {a b : Option ℚ} (h : oLtO a b = true) : a.isSome = true := by
  cases a with
  | none => exact absurd h (by cases b <;> simp [oLtO])
  | some x => rfl

/-- C10: in every candidate set, every row has a present value in each column
that set's condition compares — a comparison against a missing value is
false, so such rows never pass the filters. -/
theorem candidate_sets_no_missing (data : List Row) (memT durT coldT : ℚ) :
    ((rsCandidates data memT durT).all fun r =>
        r.MemoryMB.isSome && r.AvgDurationMs.isSome) = true ∧
    ((pcCandidates data coldT).all fun r =>
        r.ProvisionedConcurrency.isSome && r.ColdStartRate.isSome) = true ∧
    ((lowValueCandidates data).all fun r =>
        (invocationShare data r).isSome && r.CostUSD.isSome) = true ∧
    ((contCandidates data).all fun r =>
        r.AvgDurationMs.isSome && r.MemoryMB.isSome &&
          r.InvocationsPerMonth.isSome) = true := by
  refine ⟨?_, ?_, ?_, ?_⟩
  · rw [List.all_eq_true]
    intro r hr
    rw [rsCandidates, List.mem_filter, Bool.and_eq_true] at hr
    rw [Bool.and_eq_true]
    exact ⟨oGe_isSome hr.2.1, oLe_isSome hr.2.2⟩
  · rw [List.all_eq_true]
    intro r hr
    rw [pcCandidates, List.mem_filter, Bool.and_eq_true] at hr
    rw [Bool.and_eq_true]
    exact ⟨oGt_isSome hr.2.1, oLe_isSome hr.2.2⟩
  · rw [List.all_eq_true]
    intro r hr
    rw [lowValueCandidates, List.mem_filter, Bool.and_eq_true] at hr
    rw [Bool.and_eq_true]
    exact ⟨oLt_isSome hr.2.1, oGtO_isSome hr.2.2⟩
  · rw [List.all_eq_true]
    intro r hr
    rw [contCandidates, List.mem_filter, Bool.and_eq_true, Bool.and_eq_true] at hr
    rw [Bool.and_eq_true, Bool.and_eq_true]
    exact ⟨⟨oGe_isSome hr.2.1.1, oGe_isSome hr.2.1.2⟩, oLtO_isSome hr.2.2⟩

/-- Models line 150, the composite regressor `data.InvocationsPerMonth *
data.AvgDurationMs * data.MemoryMB` for one row: NaN propagates through the
elementwise product. -/
def compositeX (r : Row) : Option ℚ :=
  match r.InvocationsPerMonth, r.AvgDurationMs, r.MemoryMB with
  | some i, some d, some m => some (i * d * m)
  | _, _, _ => none

/-- The (x, y) pairs of rows whose composite regressor and CostUSD are both
present. -/
def validPoints (rows : List Row) : List (ℚ × ℚ) :=
  rows.filterMap fun r =>
    match compositeX r, r.CostUSD with
    | some x, some y => some (x, y)
    | _, _ => none

/-- Degree-1 `np.polyfit(xs, ys, 1)` on NaN-free points, returning (slope,
intercept). When the xs are not all equal the least-squares minimiser is
unique, so numpy's answer is exactly the normal-equation solution used here.
When the xs are all equal (including a single point) numpy is rank-deficient:
it emits a RankWarning and still returns coefficients — a minimum-norm
solution under its internal column scaling, whose exact value involves
square roots and is not representable in ℚ; the model returns the unscaled
minimum-norm pair in that branch. No claim depends on the numeric value of
the rank-deficient output, only on a pair being returned rather than an
error. An empty input raises, modelled as `none`. -/
def polyfit1 (pts : List (ℚ × ℚ)) : Option (ℚ × ℚ) :=
  if pts = [] then none
  else
    let n : ℚ := pts.length
    let sx := (pts.map fun p => p.1).sum
    let sy := (pts.map fun p => p.2).sum
    let sxx := (pts.map fun p => p.1 * p.1).sum
    let sxy := (pts.map fun p => p.1 * p.2).sum
    let d := n * sxx - sx * sx
    if d = 0 then
      let xbar := sx / n
      let ybar := sy / n
      some (xbar * ybar / (xbar * xbar + 1), ybar / (xbar * xbar + 1))
    else
      some ((n * sxy - sx * sy) / d, (sxx * sy - sx * sxy) / d)

/-- Models lines 150–153 as executed: X and Y are built over the WHOLE
working set, missing cells included, and fed straight to `np.polyfit`. Any
missing cell puts NaN into the least-squares system, which fails
(LinAlgError) or yields NaN coefficients — no usable pair comes back,
modelled as `none`; only when every cell is present does the fit run on the
(then complete) list of points. -/
def fitCode (rows : List Row) : Option (ℚ × ℚ) :=
  if (rows.map compositeX).any Option.isNone ||
      (rows.map fun r => r.CostUSD).any Option.isNone then none
  else polyfit1 (validPoints rows)

/-- Fit required by the spec (§4.5): run the degree-1 least squares on
exactly the rows whose composite regressor and CostUSD are all present,
excluding the rest. This is the spec-side definition, to be compared with
`fitCode`. -/
def fitSpecValidOnly (rows : List Row) : Option (ℚ × ℚ) :=
  polyfit1 (validPoints rows)

/-- Models lines 154 and 163: the data-transfer rate is the hardcoded
`C2 = 0.0005` and `predicted = C1*(inv*dur*mem) + C2*data_gb + C0`. -/
def predictCost (c1 c0 inv dur mem gb : ℚ) : ℚ :=
  c1 * (inv * dur * mem) + (0.0005 : ℚ) * gb + c0

/-- C6: the prediction equals `c1*(inv*dur*mem) + 0.0005*data_gb + c0`, and
for fixed data transfer it is linear in the composite metric: at inputs whose
composite product is doubled, the predicted cost grows by exactly `c1 * x`,
where x is the original composite product. -/
theorem predict_formula_and_linearity
    (c1 c0 inv dur mem inv2 dur2 mem2 gb : ℚ)
    (hdouble : inv2 * dur2 * mem2 = 2 * (inv * dur * mem)) :
    predictCost c1 c0 inv dur mem gb =
      c1 * (inv * dur * mem) + (0.0005 : ℚ) * gb + c0 ∧
    predictCost c1 c0 inv2 dur2 mem2 gb - predictCost c1 c0 inv dur mem gb =
      c1 * (inv * dur * mem) := by
  constructor
  · rfl
  · rw [predictCost, predictCost, hdouble]; ring

/-- C6 witness: concrete slope 1, intercept 3, inputs inside the documented
ranges, invocations doubled from 1000 to 2000 with duration and memory
fixed. -/
theorem predict_formula_and_linearity_witness :
    predictCost 1 3 1000 250 1024 50 =
      1 * ((1000 : ℚ) * 250 * 1024) + (0.0005 : ℚ) * 50 + 3 ∧
    predictCost 1 3 2000 250 1024 50 - predictCost 1 3 1000 250 1024 50 =
      1 * ((1000 : ℚ) * 250 * 1024) :=
  predict_formula_and_linearity 1 3 1000 250 1024 2000 250 1024 50 (by norm_num)

/-- C2 failing-input evaluation: a working set with exactly ONE valid row.
The code performs no degenerate-case check and no ModelFitError exists in
the program: `np.polyfit` on a single point still returns coefficients (its
minimum-norm least-squares solution), so the fit "succeeds". -/
theorem fit_single_row_returns_coefficients :
    (validPoints [rowProd]).length = 1 ∧ (fitCode [rowProd]).isSome = true := by
  have hv : validPoints [rowProd] = [((51200000 : ℚ), (100 : ℚ))] := by
    simp [validPoints, List.filterMap_cons, compositeX, rowProd]
    norm_num
  have hcond : (([rowProd].map compositeX).any Option.isNone ||
      (([rowProd].map fun r => r.CostUSD).any Option.isNone)) = false := by
    simp [compositeX, rowProd]
  constructor
  · rw [hv]; rfl
  · rw [fitCode, hcond, hv]
    norm_num [polyfit1]

/-- Row whose MemoryMB is missing: its composite regressor is NaN. -/
def rowFitBad : Row :=
  ⟨"gamma", "prod", some 5, some 1, none, some 1, some 0, some 1, some 1, some 7⟩

/-- Valid fit row with composite product 1 and cost 3. -/
def rowFitA : Row :=
  ⟨"delta", "prod", some 1, some 1, some 1, some 1, some 0, some 1, some 1, some 3⟩

/-- Valid fit row with composite product 2 and cost 5. -/
def rowFitB : Row :=
  ⟨"epsilon", "prod", some 2, some 1, some 1, some 1, some 0, some 1, some 1, some 5⟩

/-- C3 failing-input evaluation: two valid rows plus one row with a missing
MemoryMB. The spec-mandated fit on exactly the valid rows yields slope 2 and
intercept 1, but the code feeds the NaN row into `np.polyfit` and obtains no
usable coefficients at all — the missing row is not excluded and does affect
the fit. -/
theorem fit_missing_row_not_excluded :
    fitCode [rowFitA, rowFitB, rowFitBad] = none ∧
    fitSpecValidOnly [rowFitA, rowFitB, rowFitBad] = some (2, 1) := by
  constructor
  · simp [fitCode, compositeX, rowFitA, rowFitB, rowFitBad]
  · have hv : validPoints [rowFitA, rowFitB, rowFitBad] =
        [((1 : ℚ), (3 : ℚ)), (2, 5)] := by
      simp [validPoints, List.filterMap_cons, compositeX, rowFitA, rowFitB, rowFitBad]
    rw [fitSpecValidOnly, hv, polyfit1]
    norm_num
    simp

/-- Splitting a character list on a separator, keeping empty groups —
the behaviour of Python `str.split(",")`. -/
def splitOnChar (c : Char) : List Char → List (List Char)
  | [] => [[]]
  | x :: xs =>
    match splitOnChar c xs with
    | [] => [[x]]
    | g :: gs => if x = c then [] :: g :: gs else (x :: g) :: gs

/-- Models Python `str.splitlines()` for LF-separated text: split on the
newline character and drop the trailing empty group a terminating newline
would create (so "" has no lines and "a\n" has one). -/
def splitLinesPy (text : List Char) : List (List Char) :=
  let gs := splitOnChar '\n' text
  if gs.getLast? = some [] then gs.dropLast else gs

/-- Models line 25 for one line: `line[1:-1].split(",") if
line.startswith('"') else line.split(",")` — a line that starts with a quote
character loses exactly its first and last character before the comma
split. -/
def lineTokens (line : List Char) : List (List Char) :=
  if line.head? = some '"' then splitOnChar ',' ((line.drop 1).dropLast)
  else splitOnChar ',' line

/-- Models lines 24–26: parse every line, then take `parsed[0]` as the
headers and `parsed[1:]` as the rows (all values still text). An input with
no lines would make `parsed[0]` raise, modelled as `none`. -/
def loadCSV (text : List Char) :
    Option (List (List Char) × List (List (List Char))) :=
  match (splitLinesPy text).map lineTokens with
  | [] => none
  | h :: t => some (h, t)

/-- C7: the loader splits the text into lines; per line, one that starts
with a quote character has exactly its first and last character removed and
is then split on commas, any other line is split on commas directly; the
first parsed line becomes the headers and every following line one row, all
values kept as text (positional matching to headers is the pairing of each
row list with the header list). -/
theorem load_csv_contract (text : List Char) :
    loadCSV text =
      (match splitLinesPy text with
        | [] => none
        | first :: rest => some (lineTokens first, rest.map lineTokens)) ∧
    (∀ line : List Char, line.head? = some '"' →
        lineTokens line = splitOnChar ',' ((line.drop 1).dropLast)) ∧
    (∀ line : List Char, line.head? ≠ some '"' →
        lineTokens line = splitOnChar ',' line) := by
  refine ⟨?_, ?_, ?_⟩
  · cases h : splitLinesPy text with
    | nil => simp [loadCSV, h]
    | cons first rest => simp [loadCSV, h]
  · intro line hq
    rw [lineTokens, if_pos hq]
  · intro line hq
    rw [lineTokens, if_neg hq]

/-- One table cell: raw text before coercion, a number, or missing. -/
inductive CellValue where
  | text (s : List Char)
  | num (q : ℚ)
  | missing
  deriving DecidableEq

/-- A loaded table: header names plus rows of cells. -/
structure RawTable where
  headers : List (List Char)
  cells : List (List CellValue)
  deriving DecidableEq

/-- Digit test and accumulation for the numeric parser. -/
def allDigits (cs : List Char) : Bool := cs.all Char.isDigit

/-- Decimal digits to a natural number. -/
def digitsToNat (cs : List Char) : ℕ :=
  cs.foldl (fun acc c => acc * 10 + (c.toNat - '0'.toNat)) 0

/-- Unsigned decimal numeral: digits with an optional decimal point
somewhere, at least one digit in total. -/
def parseUnsigned (cs : List Char) : Option ℚ :=
  match splitOnChar '.' cs with
  | [ip] =>
    if !ip.isEmpty && allDigits ip then some (digitsToNat ip : ℚ) else none
  | [ip, fp] =>
    if !(ip.isEmpty && fp.isEmpty) && allDigits ip && allDigits fp then
      some ((digitsToNat ip : ℚ) + (digitsToNat fp : ℚ) / (10 : ℚ) ^ fp.length)
    else none
  | _ => none

/-- Numeric parse of one text cell, the decimal fragment of
`pd.to_numeric`: optional sign, digits, optional decimal point. (Scientific
notation and surrounding whitespace are not modelled; the idempotence claim
is independent of which strings parse, only that unparseable text becomes
missing.) -/
def parseNum (cs : List Char) : Option ℚ :=
  match cs with
  | '-' :: rest => (parseUnsigned rest).map fun q => -q
  | '+' :: rest => parseUnsigned rest
  | _ => parseUnsigned cs

/-- The eight columns coerced by lines 29–31. -/
def numericColumns : List (List Char) :=
  ["InvocationsPerMonth", "AvgDurationMs", "MemoryMB", "ColdStartRate",
    "ProvisionedConcurrency", "GBSeconds", "DataTransferGB", "CostUSD"].map
    String.toList

/-- Models `pd.to_numeric(cell, errors="coerce")` on one cell: text is
parsed (unparseable text becomes missing), an already-numeric cell and a
missing cell pass through unchanged. -/
def coerceCell (v : CellValue) : CellValue :=
  match v with
  | CellValue.text s =>
    match parseNum s with
    | some q => CellValue.num q
    | none => CellValue.missing
  | CellValue.num q => CellValue.num q
  | CellValue.missing => CellValue.missing

/-- Coerce the cells of one row that sit under one of the eight numeric
headers; cells under other headers (and cells beyond the header list) are
untouched. -/
def coerceRow : List (List Char) → List CellValue → List CellValue
  | _, [] => []
  | [], v :: vs => v :: vs
  | h :: hs, v :: vs =>
    (if h ∈ numericColumns then coerceCell v else v) :: coerceRow hs vs

/-- Models lines 29–31: numeric coercion of the eight named columns over the
whole table; row count, order and the header list are untouched. -/
def coerceTable (t : RawTable) : RawTable :=
  ⟨t.headers, t.cells.map (coerceRow t.headers)⟩

/-- Coercing one cell twice is the same as coercing it once: the first pass
never leaves a text cell behind. -/
theorem coerceCell_idem (v : CellValue) : coerceCell (coerceCell v) = coerceCell v := by
  cases v with
  | text s =>
    rw [coerceCell]
    cases h : parseNum s with
    | none => rfl
    | some q => rfl
  | num q => rfl
  | missing => rfl

/-- Coercing one row twice is the same as coercing it once. -/
theorem coerceRow_idem (hs : List (List Char)) (row : List CellValue) :
    coerceRow hs (coerceRow hs row) = coerceRow hs row := by
  induction row generalizing hs with
  | nil => cases hs <;> rfl
  | cons v vs ih =>
    cases hs with
    | nil => rfl
    | cons h hs =>
      rw [coerceRow, coerceRow]
      by_cases hmem : h ∈ numericColumns
      · rw [if_pos hmem, if_pos hmem, coerceCell_idem, ih]
      · rw [if_neg hmem, if_neg hmem, ih]

/-- C8: the type-coercion step is idempotent — applying it twice to any
table gives the same table as applying it once. -/
theorem coerce_idempotent (t : RawTable) :
    coerceTable (coerceTable t) = coerceTable t := by
  cases t with
  | mk hs rows =>
    simp only [coerceTable, List.map_map, RawTable.mk.injEq, true_and]
    apply List.map_congr_left
    intro row _
    exact coerceRow_idem hs row

/-- The in-memory state of one rendering pass: the base table `df` loaded at
startup, the filtered working set `data`, its derived share columns, and the
six per-tab derived tables. -/
structure DashState where
  df : List Row
  data : List Row
  costShareCol : List (Option ℚ)
  invocationShareCol : List (Option ℚ)
  paretoView : List Row
  rsView : List Row
  pcView : List Row
  lowView : List Row
  contView : List Row

/-- Models one full recomputation pass over lines 46–49 and the six tabs:
rebuild the working set from the base table and the current filter inputs
(line 46 ends in `.copy()`, so every derived-column assignment lands on the
copy), then recompute every derived column and candidate set from it. -/
def recompute (base : List Row) (envs : List String)
    (lo hi memT durT coldT : ℚ) : DashState :=
  let ws := filterRows base envs lo hi
  { df := base
    data := ws
    costShareCol := ws.map (costShare ws)
    invocationShareCol := ws.map (invocationShare ws)
    paretoView := paretoTop ws
    rsView := rsCandidates ws memT durT
    pcView := pcCandidates ws coldT
    lowView := lowValueCandidates ws
    contView := contCandidates ws }

/-- C9: recomputing the working set and every derived column/candidate set —
under any filter inputs, and again under different inputs on the state the
first pass produced — leaves the base table exactly as it was at load
time. -/
theorem base_table_immutable (base : List Row) (envs envs2 : List String)
    (lo hi memT durT coldT lo2 hi2 memT2 durT2 coldT2 : ℚ) :
    (recompute base envs lo hi memT durT coldT).df = base ∧
    (recompute (recompute base envs lo hi memT durT coldT).df
      envs2 lo2 hi2 memT2 durT2 coldT2).df = base := ⟨rfl, rfl⟩
